import Mathlib

set_option autoImplicit false

/-!
Verification development for the streaming actor runtime of a distributed
dataflow engine (worker-side stream manager, channel registry, barrier
broadcast/collection, dispatcher construction, and hash-aggregation executor
construction).  The definitions below are a shallow embedding of
`src/stream/src/task/stream_manager.rs` and
`src/stream/src/from_proto/hash_agg.rs`; components of the repository that
those files use but that are not shown (the shared channel context, the state
store, hash-key-kind calculation) are modelled from the specification and
marked as such in their doc comments.
-/

namespace RisingWave

/-- Actor ids are `u32` in the source; no arithmetic overflows them here. -/
abbrev ActorId := Nat

/-- A network location (`HostAddress` in the protobuf definitions). -/
structure HostAddress where
  host : String
  port : Nat
deriving DecidableEq, Repr

/-- Directory entry broadcast to workers: `risingwave_pb::common::ActorInfo`.
The `host` field is optional in the protobuf encoding. -/
structure ActorInfo where
  actor_id : ActorId
  host : Option HostAddress
deriving DecidableEq, Repr

/-! ### Association maps

`HashMap`s of the source are embedded as association lists with unique keys;
all operations below preserve key uniqueness, and all statements about the
maps go through `alookup`. -/

/-- Look up a key in an association list (the embedding of `HashMap::get`). -/
def alookup {α β : Type} [DecidableEq α] (m : List (α × β)) (k : α) : Option β :=
  match m with
  | [] => none
  | (k', v) :: rest => if k' = k then some v else alookup rest k

/-- Remove a key from an association list (the embedding of `HashMap::remove`,
value-free form). -/
def aerase {α β : Type} [DecidableEq α] (m : List (α × β)) (k : α) : List (α × β) :=
  match m with
  | [] => []
  | (k', v) :: rest => if k' = k then aerase rest k else (k', v) :: aerase rest k

/-- Insert, replacing any previous binding (the embedding of
`HashMap::insert`, disregarding the returned previous value). -/
def ainsert {α β : Type} [DecidableEq α] (m : List (α × β)) (k : α) (v : β) :
    List (α × β) :=
  (k, v) :: aerase m k

theorem alookup_aerase {α β : Type} [DecidableEq α] (m : List (α × β)) (k k' : α) :
    alookup (aerase m k) k' = if k = k' then none else alookup m k' := by
  induction m with
  | nil => simp [alookup, aerase]
  | cons kv rest ih =>
    rcases kv with ⟨k1, v1⟩
    by_cases h1 : k1 = k
    · subst h1
      rw [show aerase ((k1, v1) :: rest) k1 = aerase rest k1 by simp [aerase], ih]
      by_cases hk : k1 = k'
      · simp [hk]
      · simp [alookup, hk]
    · rw [show aerase ((k1, v1) :: rest) k = (k1, v1) :: aerase rest k by
        simp [aerase, h1]]
      by_cases h2 : k1 = k'
      · subst h2
        have hk : ¬ k = k1 := fun h => h1 h.symm
        simp [alookup, hk]
      · simp [alookup, h2, ih]

theorem alookup_ainsert {α β : Type} [DecidableEq α] (m : List (α × β)) (k k' : α) (v : β) :
    alookup (ainsert m k v) k' = if k = k' then some v else alookup m k' := by
  unfold ainsert
  by_cases hk : k = k'
  · subst hk; simp [alookup]
  · simp [alookup, hk, alookup_aerase]

/-! ### Errors and panics

Each error constructor corresponds to one `ErrorCode::InternalError` format
string of the source, carrying the data interpolated into the message.
Panics (`unwrap`, `assert!`, `panic!`, `unreachable!`) are a distinct,
non-returnable outcome. -/

/-- Structured rendering of the source's error values. -/
inductive ErrorCode where
  /-- "actor not found in info table" -/
  | actorNotFoundInInfoTable
  /-- "actor info mismatch when broadcasting {id}" -/
  | actorInfoMismatch (actorId : ActorId)
  /-- "duplicated actor {id}" -/
  | duplicatedActor (actorId : ActorId)
  /-- "first input of chain node should be merge node" -/
  | chainFirstInputNotMerge
  /-- "chain upstream actor {id} not exists" -/
  | chainUpstreamNotExists (upstreamActorId : ActorId)
  /-- "hanging channel should has exactly one remote side" -/
  | hangingChannelNotOneRemoteSide
  /-- protobuf accessor failure: required `host` field missing -/
  | hostNotFound
  /-- protobuf accessor failure: required `hash_mapping` field missing -/
  | hashMappingNotFound
  /-- a failure produced by an external collaborator (state store, RPC...) -/
  | externalFailure (msg : String)
deriving DecidableEq, Repr

/-- Outcome of a fallible source operation that may additionally panic:
`ok` embeds `Result::Ok`, `err` embeds `Result::Err`, and `panicked` embeds a
process abort (`unwrap` on `None`, a failed `assert!`, or `panic!`). -/
inductive PRes (α : Type) where
  | ok (a : α)
  | err (e : ErrorCode)
  | panicked (msg : String)
deriving Repr

/-- Sequencing of panicking fallible computations (the `?` operator plus
panic propagation). -/
def PRes.bind {α β : Type} : PRes α → (α → PRes β) → PRes β
  | .ok a, f => f a
  | .err e, _ => .err e
  | .panicked m, _ => .panicked m

instance : Monad PRes where
  pure := PRes.ok
  bind := PRes.bind

/-- Lift a plain `Result` into the panic-aware outcome type. -/
def PRes.ofExcept {α : Type} : Except ErrorCode α → PRes α
  | .ok a => .ok a
  | .error e => .err e

/-! ### `update_actor_info` (stream_manager.rs, `LocalStreamManagerCore`)

The actor-info directory is `actor_infos : HashMap<ActorId, ActorInfo>`.
For each entry of the broadcast request the source inserts the entry and then
fails if the insertion displaced a different previous entry. -/

/-- Embedding of `LocalStreamManagerCore::update_actor_info`: fold over
`req.get_info()`, inserting each entry and failing on a conflicting previous
binding. -/
def update_actor_info (infos : List (ActorId × ActorInfo)) (req : List ActorInfo) :
    Except ErrorCode (List (ActorId × ActorInfo)) :=
  match req with
  | [] => .ok infos
  | actor :: rest =>
      let prev := alookup infos actor.actor_id
      let infos' := ainsert infos actor.actor_id actor
      match prev with
      | some prevActor =>
          if actor ≠ prevActor then
            .error (.actorInfoMismatch actor.actor_id)
          else
            update_actor_info infos' rest
      | none => update_actor_info infos' rest

/-- C2: re-broadcasting an already-registered actor info succeeds and leaves
the directory unchanged (up to lookup) when the entry matches the stored one,
and fails with the conflict error when it differs. -/
theorem update_actor_info_reinsertion
    (infos : List (ActorId × ActorInfo)) (a prev : ActorInfo)
    (hprev : alookup infos a.actor_id = some prev) :
    (a = prev →
      ∃ infos', update_actor_info infos [a] = .ok infos' ∧
        ∀ k, alookup infos' k = alookup infos k) ∧
    (a ≠ prev →
      update_actor_info infos [a] = .error (.actorInfoMismatch a.actor_id)) := by
  constructor
  · intro heq
    subst heq
    refine ⟨ainsert infos a.actor_id a, ?_, ?_⟩
    · simp [update_actor_info, hprev]
    · intro k
      rw [alookup_ainsert]
      by_cases hk : a.actor_id = k
      · subst hk; simp [hprev]
      · simp [hk]
  · intro hne
    simp [update_actor_info, hprev, hne]

/-- Witness for C2 at a concrete directory: actor 1 stored at host "h" port 1;
re-inserting the identical entry succeeds, a different port conflicts. -/
theorem update_actor_info_reinsertion_witness :
    (∃ infos', update_actor_info
        [(1, ⟨1, some ⟨"h", 1⟩⟩)] [⟨1, some ⟨"h", 1⟩⟩] = .ok infos' ∧
        ∀ k, alookup infos' k = alookup [(1, (⟨1, some ⟨"h", 1⟩⟩ : ActorInfo))] k) ∧
    update_actor_info [(1, ⟨1, some ⟨"h", 1⟩⟩)] [⟨1, some ⟨"h", 2⟩⟩] =
      .error (.actorInfoMismatch 1) := by
  constructor
  · exact (update_actor_info_reinsertion
      [(1, ⟨1, some ⟨"h", 1⟩⟩)] ⟨1, some ⟨"h", 1⟩⟩ ⟨1, some ⟨"h", 1⟩⟩ (by
        simp [alookup])).1 rfl
  · exact (update_actor_info_reinsertion
      [(1, ⟨1, some ⟨"h", 1⟩⟩)] ⟨1, some ⟨"h", 2⟩⟩ ⟨1, some ⟨"h", 1⟩⟩ (by
        simp [alookup])).2 (by simp)

/-! ### Barriers and `send_and_collect_barrier` (stream_manager.rs)

The barrier manager and the state store are external collaborators
(`SharedContext::lock_barrier_manager`, `risingwave_storage`); the value the
one-shot receiver eventually delivers is therefore a parameter `collected`,
and the state store is a record of functions modelled from the spec. -/

/-- Barrier epoch: `{current, previous}`. -/
structure Epoch where
  curr : Nat
  prev : Nat
deriving DecidableEq, Repr

/-- Barrier mutation (payloads beyond the claims' needs are elided). -/
inductive Mutation where
  | stop (actors : List ActorId)
  | update
deriving DecidableEq, Repr

/-- A checkpoint/control barrier. -/
structure Barrier where
  epoch : Epoch
  mutation : Option Mutation
deriving DecidableEq, Repr

/-- The collection summary delivered once every actor in the collect set has
acknowledged the barrier; `synced_sstables` carries the durability-sync
artifacts (SSTs are abstract tokens here). -/
structure CollectResult where
  synced_sstables : List Nat
deriving DecidableEq, Repr

/-- Modelled from the spec: the persistent state abstraction offers a
`sync(epoch)` call that persists buffered state and can fail, and a query for
the uncommitted SSTs of an epoch (`risingwave_storage`, not under `src/`). -/
structure StateStoreModel where
  sync : Option Nat → Except String Unit
  get_uncommitted_ssts : Nat → List Nat

/-- Observable steps of `send_and_collect_barrier`, in program order. -/
inductive BarrierEvent where
  | sendBarrier
  | awaitCollect
  | syncStateStore (epoch : Option Nat)
deriving DecidableEq, Repr

/-- Embedding of `LocalStreamManager::send_and_collect_barrier`: broadcast the
barrier, await the one-shot collection result, then — only when `need_sync` —
sync the store at the barrier's previous epoch, substituting the store's
uncommitted SSTs on success and panicking (no error return) on failure.
Returns the event trace together with the outcome. -/
def send_and_collect_barrier (store : StateStoreModel) (barrier : Barrier)
    (collected : CollectResult) (need_sync : Bool) :
    List BarrierEvent × PRes CollectResult :=
  let events := [BarrierEvent.sendBarrier, BarrierEvent.awaitCollect]
  if need_sync then
    match store.sync (some barrier.epoch.prev) with
    | .ok _ =>
        (events ++ [.syncStateStore (some barrier.epoch.prev)],
          .ok { collected with
                  synced_sstables := store.get_uncommitted_ssts barrier.epoch.prev })
    | .error e =>
        (events ++ [.syncStateStore (some barrier.epoch.prev)],
          .panicked ("Failed to sync state store after receiving barrier due to " ++ e))
  else
    (events, .ok collected)

/-- C1: the barrier is sent and fully collected before any store sync; the
sync happens at most once, only when `need_sync` holds, and at the barrier's
previous epoch; on sync success the summary's `synced_sstables` is replaced by
the store's uncommitted SSTs for that epoch; a sync failure panics the process
and never surfaces as an error value. -/
theorem send_and_collect_barrier_spec (store : StateStoreModel) (barrier : Barrier)
    (collected : CollectResult) (need_sync : Bool) :
    (∃ tail,
      (send_and_collect_barrier store barrier collected need_sync).1 =
        [.sendBarrier, .awaitCollect] ++ tail ∧
      tail.length ≤ 1 ∧
      (∀ ev ∈ tail, ev = BarrierEvent.syncStateStore (some barrier.epoch.prev)) ∧
      (tail = [] ↔ need_sync = false)) ∧
    (need_sync = false →
      (send_and_collect_barrier store barrier collected need_sync).2 = .ok collected) ∧
    (need_sync = true →
      (∀ u, store.sync (some barrier.epoch.prev) = .ok u →
        (send_and_collect_barrier store barrier collected need_sync).2 =
          .ok { collected with
                  synced_sstables := store.get_uncommitted_ssts barrier.epoch.prev }) ∧
      (∀ e, store.sync (some barrier.epoch.prev) = .error e →
        (∃ m, (send_and_collect_barrier store barrier collected need_sync).2 =
          .panicked m) ∧
        ∀ ec, (send_and_collect_barrier store barrier collected need_sync).2 ≠
          .err ec)) := by
  refine ⟨?_, ?_, ?_⟩
  · cases need_sync with
    | false => exact ⟨[], by simp [send_and_collect_barrier], by simp, by simp, by simp⟩
    | true =>
      refine ⟨[.syncStateStore (some barrier.epoch.prev)], ?_, by simp, by simp, by simp⟩
      cases hs : store.sync (some barrier.epoch.prev) with
      | ok u => simp [send_and_collect_barrier, hs]
      | error e => simp [send_and_collect_barrier, hs]
  · intro h
    subst h
    simp [send_and_collect_barrier]
  · intro h
    subst h
    constructor
    · intro u hu
      simp [send_and_collect_barrier, hu]
    · intro e he
      constructor
      · exact ⟨"Failed to sync state store after receiving barrier due to " ++ e,
          by simp [send_and_collect_barrier, he]⟩
      · intro ec
        simp [send_and_collect_barrier, he]

/-- Witness for C1 at a concrete store whose sync succeeds: with `need_sync`
set, the collected summary's SSTs are replaced by the store's uncommitted SSTs
for epoch 4 (the barrier's previous epoch). -/
theorem send_and_collect_barrier_spec_witness :
    (send_and_collect_barrier
        ⟨fun _ => .ok (), fun e => [e + 100]⟩ ⟨⟨5, 4⟩, none⟩ ⟨[7]⟩ true).2 =
      .ok ⟨[104]⟩ := by
  have h := (send_and_collect_barrier_spec
    ⟨fun _ => .ok (), fun e => [e + 100]⟩ ⟨⟨5, 4⟩, none⟩ ⟨[7]⟩ true).2.2 rfl
  exact h.1 () rfl

/-! ### Stream plan descriptors (`risingwave_pb::stream_plan`)

Only the fields the stream manager reads are embedded; plan fields it never
touches (identity strings, pk indices, operator ids of non-agg nodes) are
elided. -/

/-- `stream_plan::DispatcherType`. -/
inductive DispatcherType where
  | hash
  | broadcast
  | simple
  | noShuffle
  | invalid
deriving DecidableEq, Repr

/-- The compressed consistent-hash mapping carried by a Hash dispatcher. -/
structure ActorMapping where
  original_indices : List Nat
  data : List Nat
deriving DecidableEq, Repr

/-- `stream_plan::Dispatcher`. -/
structure Dispatcher where
  type : DispatcherType
  column_indices : List Nat
  hash_mapping : Option ActorMapping
  dispatcher_id : Nat
  downstream_actor_id : List ActorId
deriving DecidableEq, Repr

/-- The node-body variants the stream manager itself inspects:
`Chain`, `Merge` (with its upstream actor ids); every other operator kind is
`other`, which the manager treats uniformly. -/
inductive NodeBody where
  | chain
  | merge (upstream_actor_id : List ActorId)
  | other
deriving DecidableEq, Repr

/-- `stream_plan::StreamNode`: optional node body (protobuf `oneof`) and the
list of input nodes. -/
inductive StreamNode where
  | mk (node_body : Option NodeBody) (input : List StreamNode)
deriving Repr

/-- The node body of a stream node (`node.node_body`, before `unwrap`). -/
def StreamNode.node_body : StreamNode → Option NodeBody
  | .mk b _ => b

/-- The children of a stream node (`node.input`). -/
def StreamNode.input : StreamNode → List StreamNode
  | .mk _ i => i

/-- `stream_plan::StreamActor`: the pending actor descriptor. -/
structure StreamActor where
  actor_id : ActorId
  fragment_id : Nat
  nodes : Option StreamNode
  dispatcher : List Dispatcher
  upstream_actor_id : List ActorId
deriving Repr

/-! ### Channel registry (`SharedContext`)

Modelled from the spec: `SharedContext` is not under `src/`; per spec §4.1 it
owns one channel pair per ordered `(upstream_id, downstream_id)` key, each
half optional and takeable once, with `add_channel_pairs` inserting a new pair
or filling the missing half of a pre-declared one and `retain` dropping every
entry whose key fails a predicate.  Channel halves are given fresh numeric
tokens by a counter standing in for queue allocation. -/

/-- Ordered `(upstream_id, downstream_id)` channel key. -/
abbrev UpDownActorIds := ActorId × ActorId

/-- A channel pair: optional sender and receiver halves (tokens). -/
structure ChannelPair where
  sender : Option Nat
  receiver : Option Nat
deriving DecidableEq, Repr

/-- Modelled from the spec: the shared channel registry plus a freshness
counter for newly allocated channel halves. -/
structure SharedContext where
  registry : List (UpDownActorIds × ChannelPair)
  next_channel : Nat
deriving Repr

/-- Embedding of `channel(LOCAL_OUTPUT_CHANNEL_SIZE)`: allocate a fresh
sender/receiver pair. -/
def SharedContext.channel (ctx : SharedContext) : ChannelPair × SharedContext :=
  (⟨some ctx.next_channel, some (ctx.next_channel + 1)⟩,
    { ctx with next_channel := ctx.next_channel + 2 })

/-- Modelled from the spec: `add_channel_pairs` inserts a new pair or fills in
the missing halves of a pre-declared one (halves supplied here win). -/
def SharedContext.add_channel_pairs (ctx : SharedContext) (key : UpDownActorIds)
    (pair : ChannelPair) : SharedContext :=
  let merged :=
    match alookup ctx.registry key with
    | some old =>
        ChannelPair.mk (pair.sender.orElse fun _ => old.sender)
          (pair.receiver.orElse fun _ => old.receiver)
    | none => pair
  { ctx with registry := ainsert ctx.registry key merged }

/-- Allocate a fresh channel and register it under `key` (the
`let (tx, rx) = channel(..); add_channel_pairs(key, (Some tx, Some rx))`
idiom used throughout `stream_manager.rs`). -/
def SharedContext.add_fresh_channel (ctx : SharedContext) (key : UpDownActorIds) :
    SharedContext :=
  let (pair, ctx') := ctx.channel
  ctx'.add_channel_pairs key pair

/-- Embedding of `SharedContext::retain`: keep exactly the registry entries
whose key satisfies the predicate. -/
def SharedContext.retain (ctx : SharedContext) (p : UpDownActorIds → Bool) :
    SharedContext :=
  { ctx with registry := ctx.registry.filter (fun kv => p kv.1) }

theorem alookup_filter {α β : Type} [DecidableEq α] (m : List (α × β))
    (p : α → Bool) (k : α) :
    alookup (m.filter (fun kv => p kv.1)) k =
      if p k then alookup m k else none := by
  induction m with
  | nil => simp [alookup]
  | cons kv rest ih =>
    rcases kv with ⟨k1, v1⟩
    by_cases h1 : k1 = k
    · subst h1
      cases hp : p k1 with
      | true => simp [List.filter, hp, alookup]
      | false => simpa [List.filter, hp, alookup] using ih
    · cases hp : p k1 with
      | true => simpa [List.filter, hp, alookup, h1] using ih
      | false => simpa [List.filter, hp, alookup, h1] using ih

/-! ### The stream manager core state -/

/-- Embedding of `LocalStreamManagerCore`: join handles (tokens), the shared
channel context, the actor-info directory and the pending actor descriptors.
The mock source, state store handle, metrics and client pool are not read by
any claim and are elided. -/
structure LocalStreamManagerCore where
  handles : List (ActorId × Nat)
  context : SharedContext
  actor_infos : List (ActorId × ActorInfo)
  actors : List (ActorId × StreamActor)
deriving Repr

/-- Embedding of `LocalStreamManagerCore::drop_actor`: unwrap (panic) on a
missing handle, retain only channel entries whose upstream side differs from
the dropped actor, and remove the actor's info entry and pending descriptor.
(`handle.abort()` has no effect on the embedded state.) -/
def drop_actor (core : LocalStreamManagerCore) (actor_id : ActorId) :
    PRes LocalStreamManagerCore :=
  match alookup core.handles actor_id with
  | none => .panicked "called Option::unwrap on a None value"
  | some _ =>
      .ok { core with
        handles := aerase core.handles actor_id,
        context := core.context.retain (fun key => key.1 ≠ actor_id),
        actor_infos := aerase core.actor_infos actor_id,
        actors := aerase core.actors actor_id }

/-- C5: dropping an actor removes its handle, info entry and pending
descriptor and exactly the channel entries whose upstream id is the dropped
actor; all entries of other actors, and channels in which the dropped actor is
only the downstream side, keep their previous bindings. -/
theorem drop_actor_frame (core : LocalStreamManagerCore) (actor_id : ActorId)
    (h : (alookup core.handles actor_id).isSome) :
    ∃ core', drop_actor core actor_id = .ok core' ∧
      alookup core'.handles actor_id = none ∧
      alookup core'.actor_infos actor_id = none ∧
      alookup core'.actors actor_id = none ∧
      (∀ id', id' ≠ actor_id →
        alookup core'.handles id' = alookup core.handles id' ∧
        alookup core'.actor_infos id' = alookup core.actor_infos id' ∧
        alookup core'.actors id' = alookup core.actors id') ∧
      (∀ key : UpDownActorIds,
        alookup core'.context.registry key =
          if key.1 = actor_id then none else alookup core.context.registry key) := by
  rcases hs : alookup core.handles actor_id with _ | v
  · rw [hs] at h; cases h
  · refine ⟨_, by rw [drop_actor, hs], ?_, ?_, ?_, ?_, ?_⟩
    · simp [alookup_aerase]
    · simp [alookup_aerase]
    · simp [alookup_aerase]
    · intro id' hne
      have hne' : actor_id ≠ id' := fun hcontra => hne hcontra.symm
      refine ⟨?_, ?_, ?_⟩ <;> simp [alookup_aerase, hne']
    · intro key
      show alookup ((core.context.retain (fun key => key.1 ≠ actor_id)).registry) key = _
      rw [SharedContext.retain]
      rw [alookup_filter core.context.registry (fun key => decide (key.1 ≠ actor_id)) key]
      by_cases hk : key.1 = actor_id
      · simp [hk]
      · simp [hk]

/-- Witness for C5: dropping actor 1 from a core holding actors 1 and 3,
where the registry has channels (1,2), (3,1) and (3,4). -/
theorem drop_actor_frame_witness :
    ∃ core', drop_actor
        ⟨[(1, 10), (3, 11)],
         ⟨[((1, 2), ⟨some 0, some 1⟩), ((3, 1), ⟨some 2, some 3⟩),
           ((3, 4), ⟨some 4, some 5⟩)], 6⟩,
         [(1, ⟨1, some ⟨"h", 1⟩⟩), (3, ⟨3, some ⟨"h", 1⟩⟩)],
         []⟩ 1 = .ok core' ∧
      alookup core'.handles 1 = none ∧
      alookup core'.actor_infos 1 = none ∧
      alookup core'.actors 1 = none ∧
      (∀ id', id' ≠ 1 →
        alookup core'.handles id' =
          alookup [(1, 10), (3, 11)] id' ∧
        alookup core'.actor_infos id' =
          alookup [(1, (⟨1, some ⟨"h", 1⟩⟩ : ActorInfo)),
                   (3, ⟨3, some ⟨"h", 1⟩⟩)] id' ∧
        alookup core'.actors id' = alookup ([] : List (ActorId × StreamActor)) id') ∧
      (∀ key : UpDownActorIds,
        alookup core'.context.registry key =
          if key.1 = 1 then none
          else alookup [((1, 2), (⟨some 0, some 1⟩ : ChannelPair)),
                        ((3, 1), ⟨some 2, some 3⟩), ((3, 4), ⟨some 4, some 5⟩)] key) :=
  drop_actor_frame
    ⟨[(1, 10), (3, 11)],
     ⟨[((1, 2), ⟨some 0, some 1⟩), ((3, 1), ⟨some 2, some 3⟩),
       ((3, 4), ⟨some 4, some 5⟩)], 6⟩,
     [(1, ⟨1, some ⟨"h", 1⟩⟩), (3, ⟨3, some ⟨"h", 1⟩⟩)],
     []⟩ 1 (by simp [alookup])

/-! ### Chain-node channel pre-creation (`build_channel_for_chain_node`)

The source walks the plan tree; on a `Chain` node it requires the first input
to be a `Merge` node, checks every listed upstream against the actor-info
directory, and pre-creates a channel pair per upstream.  The embedding
returns the list of channel keys in creation order (the caller registers
them); effects already performed before a failure are not needed by any
claim and are dropped with the error. -/

/-- The upstream scan of the `Chain` branch: for each upstream actor id, fail
if it is absent from the directory, otherwise record the `(upstream, actor)`
channel key. -/
def chain_upstream_channels (infos : List (ActorId × ActorInfo)) (actor_id : ActorId) :
    List ActorId → Except ErrorCode (List UpDownActorIds)
  | [] => .ok []
  | u :: rest =>
      if (alookup infos u).isSome then
        match chain_upstream_channels infos actor_id rest with
        | .ok ks => .ok ((u, actor_id) :: ks)
        | .error e => .error e
      else .error (.chainUpstreamNotExists u)

mutual

/-- Embedding of `LocalStreamManagerCore::build_channel_for_chain_node`:
handle a `Chain` node (first input must be a `Merge`; verify and pre-create
upstream channels), then recurse into every child. -/
def build_channel_for_chain_node (infos : List (ActorId × ActorInfo))
    (actor_id : ActorId) (stream_node : StreamNode) : PRes (List UpDownActorIds) :=
  match stream_node with
  | .mk body input =>
      let chainPart : PRes (List UpDownActorIds) :=
        match body with
        | none => .panicked "called Option::unwrap on a None value"
        | some .chain =>
            match input with
            | [] => .panicked "called Option::unwrap on a None value"
            | first :: _ =>
                match first.node_body with
                | none => .panicked "called Option::unwrap on a None value"
                | some (.merge us) =>
                    PRes.ofExcept (chain_upstream_channels infos actor_id us)
                | some .chain => .err .chainFirstInputNotMerge
                | some .other => .err .chainFirstInputNotMerge
        | some (.merge _) => .ok []
        | some .other => .ok []
      PRes.bind chainPart fun ks =>
        PRes.bind (build_channel_for_chain_node_list infos actor_id input) fun ks' =>
          .ok (ks ++ ks')

/-- The `for child in &stream_node.input` recursion of
`build_channel_for_chain_node`. -/
def build_channel_for_chain_node_list (infos : List (ActorId × ActorInfo))
    (actor_id : ActorId) : List StreamNode → PRes (List UpDownActorIds)
  | [] => .ok []
  | n :: rest =>
      PRes.bind (build_channel_for_chain_node infos actor_id n) fun ks =>
        PRes.bind (build_channel_for_chain_node_list infos actor_id rest) fun ks' =>
          .ok (ks ++ ks')

end

theorem chain_upstream_channels_all_present
    (infos : List (ActorId × ActorInfo)) (actor_id : ActorId) (us : List ActorId)
    (h : ∀ u ∈ us, (alookup infos u).isSome) :
    chain_upstream_channels infos actor_id us = .ok (us.map (fun u => (u, actor_id))) := by
  induction us with
  | nil => rfl
  | cons u rest ih =>
    have hu : (alookup infos u).isSome := h u (by simp)
    have hrest := ih (fun v hv => h v (by simp [hv]))
    simp [chain_upstream_channels, hu, hrest]

theorem chain_upstream_channels_first_absent
    (infos : List (ActorId × ActorInfo)) (actor_id : ActorId) (us : List ActorId)
    (u₀ : ActorId) (h : us.find? (fun u => (alookup infos u).isNone) = some u₀) :
    chain_upstream_channels infos actor_id us = .error (.chainUpstreamNotExists u₀) := by
  induction us with
  | nil => simp [List.find?] at h
  | cons u rest ih =>
    by_cases hu : (alookup infos u).isNone
    · rw [List.find?_cons_of_pos _ (by simpa using hu)] at h
      injection h with h'
      subst h'
      have hns : ¬ (alookup infos u).isSome := by
        cases hl : alookup infos u with
        | none => simp
        | some v => rw [hl] at hu; simp at hu
      simp [chain_upstream_channels, hns]
    · rw [List.find?_cons_of_neg _ (by simpa using hu)] at h
      have hsome : (alookup infos u).isSome := by
        cases hl : alookup infos u with
        | none => rw [hl] at hu; simp at hu
        | some v => simp
      simp [chain_upstream_channels, hsome, ih h]

/-- C4: on a chain node whose first input is a merge node, every listed
upstream absent from the directory makes the call fail with an error naming
the (first) missing upstream; when all are present a channel key
`(upstream, actor)` is produced for each listed upstream; a chain whose first
input is not a merge node is an error; and the walk recurses into all
children of every node. -/
theorem build_channel_for_chain_node_spec
    (infos : List (ActorId × ActorInfo)) (actor_id : ActorId)
    (us : List ActorId) (minput rest : List StreamNode) :
    (∀ u₀, (us.find? (fun u => (alookup infos u).isNone)) = some u₀ →
      build_channel_for_chain_node infos actor_id
          (.mk (some .chain) (.mk (some (.merge us)) minput :: rest)) =
        .err (.chainUpstreamNotExists u₀)) ∧
    ((∀ u ∈ us, (alookup infos u).isSome) →
      ∀ ks', build_channel_for_chain_node_list infos actor_id
          (.mk (some (.merge us)) minput :: rest) = .ok ks' →
        build_channel_for_chain_node infos actor_id
            (.mk (some .chain) (.mk (some (.merge us)) minput :: rest)) =
          .ok (us.map (fun u => (u, actor_id)) ++ ks')) ∧
    (∀ (b : NodeBody), (∀ us', b ≠ .merge us') →
      build_channel_for_chain_node infos actor_id
          (.mk (some .chain) (.mk (some b) minput :: rest)) =
        .err .chainFirstInputNotMerge) ∧
    (build_channel_for_chain_node infos actor_id (.mk (some .other) rest) =
      build_channel_for_chain_node_list infos actor_id rest) := by
  refine ⟨?_, ?_, ?_, ?_⟩
  · intro u₀ hfind
    rw [build_channel_for_chain_node]
    simp only [StreamNode.node_body,
      chain_upstream_channels_first_absent infos actor_id us u₀ hfind]
    rfl
  · intro hall ks' hks
    rw [build_channel_for_chain_node]
    simp only [StreamNode.node_body,
      chain_upstream_channels_all_present infos actor_id us hall, hks]
    rfl
  · intro b hb
    rw [build_channel_for_chain_node]
    cases b with
    | chain => rfl
    | merge us' => exact absurd rfl (hb us')
    | other => rfl
  · rw [build_channel_for_chain_node]
    cases hl : build_channel_for_chain_node_list infos actor_id rest with
    | ok ks => simp [PRes.bind]
    | err e => simp [PRes.bind]
    | panicked m => simp [PRes.bind]

/-- Witness for C4: with actor 7 registered, a chain node over `Merge [7]`
for actor 9 yields the single pre-created channel key `(7, 9)`; with the
directory empty the same call fails naming upstream 7. -/
theorem build_channel_for_chain_node_spec_witness :
    build_channel_for_chain_node [(7, ⟨7, some ⟨"h", 1⟩⟩)] 9
        (.mk (some .chain) [.mk (some (.merge [7])) []]) = .ok [(7, 9)] ∧
    build_channel_for_chain_node [] 9
        (.mk (some .chain) [.mk (some (.merge [7])) []]) =
      .err (.chainUpstreamNotExists 7) := by
  constructor
  · have h := (build_channel_for_chain_node_spec [(7, ⟨7, some ⟨"h", 1⟩⟩)] 9
      [7] [] []).2.1 (by intro u hu; simp at hu; subst hu; simp [alookup]) []
    have hlist : build_channel_for_chain_node_list [(7, ⟨7, some ⟨"h", 1⟩⟩)] 9
        [StreamNode.mk (some (.merge [7])) []] = .ok [] := by
      rw [build_channel_for_chain_node_list, build_channel_for_chain_node]
      rfl
    simpa using h hlist
  · exact (build_channel_for_chain_node_spec [] 9 [7] [] []).1 7 (by
      simp [List.find?, alookup])

/-! ### `update_actors` (stream_manager.rs)

Registration of pending descriptors with a duplicate check, then channel
pre-creation for *every* actor in the pending table (chain channels, one pair
per dispatcher downstream edge, and pairs for upstream edges whose upstream id
is not in the current request's id set), then the hanging-channel requests.
Partial state already applied when a later step fails is dropped together
with the error; no claim inspects it (spec §7: a failed update requires a
re-sync anyway). -/

/-- A `stream_service::HangingChannel` request: optional upstream and
downstream `ActorInfo`. -/
structure HangingChannel where
  upstream : Option ActorInfo
  downstream : Option ActorInfo
deriving DecidableEq, Repr

/-- The descriptor-registration loop of `update_actors`: insert each request
descriptor, failing if the id was already bound (by this request or an
earlier call). -/
def register_actors (tbl : List (ActorId × StreamActor)) :
    List StreamActor → Except ErrorCode (List (ActorId × StreamActor))
  | [] => .ok tbl
  | a :: rest =>
      let prev := alookup tbl a.actor_id
      let tbl' := ainsert tbl a.actor_id a
      if prev.isSome then .error (.duplicatedActor a.actor_id)
      else register_actors tbl' rest

/-- One iteration of the `for (current_id, actor) in &self.actors` loop:
chain-node channel pre-creation, one fresh pair per dispatcher downstream
edge (`update_upstreams` on `down_id`), and one fresh pair per upstream edge
whose upstream id is not in the current request's id set (`local_actor_ids`). -/
def update_actors_channel_step (infos : List (ActorId × ActorInfo))
    (local_actor_ids : List ActorId) (ctx : SharedContext)
    (current_id : ActorId) (actor : StreamActor) : PRes SharedContext :=
  match actor.nodes with
  | none => .panicked "called Option::unwrap on a None value"
  | some node =>
      PRes.bind (build_channel_for_chain_node infos current_id node) fun chain_keys =>
        let ctx := chain_keys.foldl SharedContext.add_fresh_channel ctx
        let down_id := (actor.dispatcher.map (fun x => x.downstream_actor_id)).flatten
            |>.map (fun id => (current_id, id))
        let ctx := down_id.foldl SharedContext.add_fresh_channel ctx
        let up_id := (actor.upstream_actor_id.filter
            (fun u => ¬ local_actor_ids.contains u)).map (fun u => (u, current_id))
        .ok (up_id.foldl SharedContext.add_fresh_channel ctx)

/-- The channel loop of `update_actors`, over the whole pending table. -/
def update_actors_channel_loop (infos : List (ActorId × ActorInfo))
    (local_actor_ids : List ActorId) :
    SharedContext → List (ActorId × StreamActor) → PRes SharedContext
  | ctx, [] => .ok ctx
  | ctx, (current_id, actor) :: rest =>
      PRes.bind (update_actors_channel_step infos local_actor_ids ctx current_id actor)
        fun ctx' => update_actors_channel_loop infos local_actor_ids ctx' rest

/-- One hanging-channel request.  The source matches, in order:
`(Some(up), Some(ActorInfo{host: None, ..}))`, then
`(Some(ActorInfo{host: None, ..}), Some(down))`, then errors.  The branches
below are the disjoint expansion of that ordered match (first-match
semantics are preserved: a hostless downstream takes the first branch even
when the upstream is hostless too). -/
def add_hanging_channel (ctx : SharedContext) (hc : HangingChannel) :
    Except ErrorCode SharedContext :=
  match hc.upstream, hc.downstream with
  | some up, some ⟨down_id, none⟩ =>
      .ok (ctx.add_fresh_channel (up.actor_id, down_id))
  | some ⟨up_id, none⟩, some ⟨down_id, some _⟩ =>
      .ok (ctx.add_fresh_channel (up_id, down_id))
  | some ⟨_, some _⟩, some ⟨_, some _⟩ => .error .hangingChannelNotOneRemoteSide
  | none, _ => .error .hangingChannelNotOneRemoteSide
  | some _, none => .error .hangingChannelNotOneRemoteSide

/-- The `for hanging_channel in hanging_channels` loop. -/
def add_hanging_channels :
    SharedContext → List HangingChannel → Except ErrorCode SharedContext
  | ctx, [] => .ok ctx
  | ctx, hc :: rest =>
      match add_hanging_channel ctx hc with
      | .ok ctx' => add_hanging_channels ctx' rest
      | .error e => .error e

/-- Embedding of `LocalStreamManagerCore::update_actors`. -/
def update_actors (core : LocalStreamManagerCore) (actors : List StreamActor)
    (hanging_channels : List HangingChannel) : PRes LocalStreamManagerCore :=
  let local_actor_ids := actors.map (fun a => a.actor_id)
  match register_actors core.actors actors with
  | .error e => .err e
  | .ok tbl =>
      PRes.bind (update_actors_channel_loop core.actor_infos local_actor_ids
          core.context tbl) fun ctx' =>
        match add_hanging_channels ctx' hanging_channels with
        | .error e => .err e
        | .ok ctx'' => .ok { core with actors := tbl, context := ctx'' }

theorem register_actors_duplicate (tbl : List (ActorId × StreamActor))
    (req : List StreamActor)
    (h : (∃ a ∈ req, (alookup tbl a.actor_id).isSome) ∨
      ¬ (req.map (fun a => a.actor_id)).Nodup) :
    ∃ d, register_actors tbl req = .error (.duplicatedActor d) := by
  induction req generalizing tbl with
  | nil =>
    rcases h with ⟨a, ha, _⟩ | hnd
    · cases ha
    · simp at hnd
  | cons a rest ih =>
    by_cases hp : (alookup tbl a.actor_id).isSome
    · exact ⟨a.actor_id, by simp [register_actors, hp]⟩
    · have hreg : register_actors tbl (a :: rest) =
          register_actors (ainsert tbl a.actor_id a) rest := by
        simp [register_actors, hp]
      rw [hreg]
      apply ih
      rcases h with ⟨c, hc, hcs⟩ | hnd
      · rcases List.mem_cons.mp hc with hca | hcr
        · exact absurd (hca ▸ hcs) hp
        · left
          refine ⟨c, hcr, ?_⟩
          rw [alookup_ainsert]
          by_cases he : a.actor_id = c.actor_id
          · simp [he]
          · simpa [he] using hcs
      · simp only [List.map_cons, List.nodup_cons, not_and_or] at hnd
        rcases hnd with hmem | hnd'
        · rw [not_not] at hmem
          rcases List.mem_map.mp hmem with ⟨c, hcr, hce⟩
          left
          refine ⟨c, hcr, ?_⟩
          rw [alookup_ainsert, hce, if_pos rfl]
          rfl
        · right; exact hnd'

/-- C7: an `update_actors` request carrying an actor id already bound in the
pending-descriptor table — by an earlier call or by the same request — makes
the whole call return a duplicate-actor error. -/
theorem update_actors_duplicate_error (core : LocalStreamManagerCore)
    (req : List StreamActor) (hanging : List HangingChannel)
    (h : (∃ a ∈ req, (alookup core.actors a.actor_id).isSome) ∨
      ¬ (req.map (fun a => a.actor_id)).Nodup) :
    ∃ d, update_actors core req hanging = .err (.duplicatedActor d) := by
  obtain ⟨d, hd⟩ := register_actors_duplicate core.actors req h
  exact ⟨d, by simp [update_actors, hd]⟩

/-- Witness for C7: actor 1 is already pending; re-sending a descriptor for
id 1 yields a duplicate-actor error. -/
theorem update_actors_duplicate_error_witness :
    ∃ d, update_actors
        ⟨[], ⟨[], 0⟩, [], [(1, ⟨1, 0, none, [], []⟩)]⟩
        [⟨1, 0, none, [], []⟩] [] = .err (.duplicatedActor d) :=
  update_actors_duplicate_error
    ⟨[], ⟨[], 0⟩, [], [(1, ⟨1, 0, none, [], []⟩)]⟩
    [⟨1, 0, none, [], []⟩] []
    (Or.inl ⟨⟨1, 0, none, [], []⟩, by simp, by simp [alookup]⟩)

/-- C3 counterexample: a hanging channel whose two sides are both local
(both `ActorInfo`s carry no host) is accepted — the call succeeds and creates
the pair — whereas the claim demands an error for the both-local case. -/
theorem update_actors_hanging_both_local_cex :
    ∃ core', update_actors ⟨[], ⟨[], 0⟩, [], []⟩ []
        [⟨some ⟨1, none⟩, some ⟨2, none⟩⟩] = .ok core' ∧
      (alookup core'.context.registry (1, 2)).isSome := by
  exact ⟨_, rfl, rfl⟩

/-- C3 (amended): a hanging channel creates its pair when both sides are
given and at least one side is hostless — the overlapping both-hostless case
resolving to the first (hostless-downstream) branch — and errors exactly when
a side is missing or both sides carry hosts. -/
theorem update_actors_hanging_one_local_amended
    (core : LocalStreamManagerCore) (hc : HangingChannel) (ctx₀ : SharedContext)
    (hloop : update_actors_channel_loop core.actor_infos [] core.context
      core.actors = .ok ctx₀) :
    (∀ up down_id, hc = ⟨some up, some ⟨down_id, none⟩⟩ →
      ∃ core', update_actors core [] [hc] = .ok core' ∧
        (alookup core'.context.registry (up.actor_id, down_id)).isSome) ∧
    (∀ up_id down_id haddr, hc = ⟨some ⟨up_id, none⟩, some ⟨down_id, some haddr⟩⟩ →
      ∃ core', update_actors core [] [hc] = .ok core' ∧
        (alookup core'.context.registry (up_id, down_id)).isSome) ∧
    (∀ up_id ha down_id hb, hc = ⟨some ⟨up_id, some ha⟩, some ⟨down_id, some hb⟩⟩ →
      update_actors core [] [hc] = .err .hangingChannelNotOneRemoteSide) ∧
    ((hc.upstream = none ∨ hc.downstream = none) →
      update_actors core [] [hc] = .err .hangingChannelNotOneRemoteSide) := by
  have hu : update_actors core [] [hc] =
      match add_hanging_channels ctx₀ [hc] with
      | .error e => .err e
      | .ok ctx'' => .ok { core with actors := core.actors, context := ctx'' } := by
    simp [update_actors, register_actors, hloop, PRes.bind]
  refine ⟨?_, ?_, ?_, ?_⟩
  · intro up down_id heq
    subst heq
    refine ⟨{ core with context := ctx₀.add_fresh_channel (up.actor_id, down_id) },
      ?_, ?_⟩
    · rw [hu]
      simp [add_hanging_channels, add_hanging_channel]
    · show (alookup ((ctx₀.add_fresh_channel (up.actor_id, down_id)).registry)
        (up.actor_id, down_id)).isSome
      simp [SharedContext.add_fresh_channel, SharedContext.channel,
        SharedContext.add_channel_pairs, alookup_ainsert]
  · intro up_id down_id haddr heq
    subst heq
    refine ⟨{ core with context := ctx₀.add_fresh_channel (up_id, down_id) }, ?_, ?_⟩
    · rw [hu]
      simp [add_hanging_channels, add_hanging_channel]
    · show (alookup ((ctx₀.add_fresh_channel (up_id, down_id)).registry)
        (up_id, down_id)).isSome
      simp [SharedContext.add_fresh_channel, SharedContext.channel,
        SharedContext.add_channel_pairs, alookup_ainsert]
  · intro up_id ha down_id hb heq
    subst heq
    rw [hu]
    simp [add_hanging_channels, add_hanging_channel]
  · intro hcase
    rcases hc with ⟨hcu, hcd⟩
    rw [hu]
    rcases hcase with hup | hdown
    · simp only at hup
      subst hup
      simp [add_hanging_channels, add_hanging_channel]
    · simp only at hdown
      subst hdown
      cases hcu with
      | none => simp [add_hanging_channels, add_hanging_channel]
      | some up => simp [add_hanging_channels, add_hanging_channel]

/-- Witness for the amended C3 at a concrete core: an upstream with a host
and a hostless downstream creates the pair (1,2); a both-hosted channel
errors. -/
theorem update_actors_hanging_one_local_amended_witness :
    (∃ core', update_actors ⟨[], ⟨[], 0⟩, [], []⟩ []
        [⟨some ⟨1, some ⟨"h", 1⟩⟩, some ⟨2, none⟩⟩] = .ok core' ∧
      (alookup core'.context.registry (1, 2)).isSome) ∧
    update_actors ⟨[], ⟨[], 0⟩, [], []⟩ []
        [⟨some ⟨1, some ⟨"h", 1⟩⟩, some ⟨2, some ⟨"g", 2⟩⟩⟩] =
      .err .hangingChannelNotOneRemoteSide := by
  constructor
  · exact (update_actors_hanging_one_local_amended
      ⟨[], ⟨[], 0⟩, [], []⟩ ⟨some ⟨1, some ⟨"h", 1⟩⟩, some ⟨2, none⟩⟩
      ⟨[], 0⟩ rfl).1 ⟨1, some ⟨"h", 1⟩⟩ 2 rfl
  · exact (update_actors_hanging_one_local_amended
      ⟨[], ⟨[], 0⟩, [], []⟩ ⟨some ⟨1, some ⟨"h", 1⟩⟩, some ⟨2, some ⟨"g", 2⟩⟩⟩
      ⟨[], 0⟩ rfl).2.2.1 1 ⟨"h", 1⟩ 2 ⟨"g", 2⟩ rfl

/-! ### C10: channel pre-creation covers the whole pending table -/

theorem alookup_isSome_add_fresh (ctx : SharedContext) (key k : UpDownActorIds)
    (h : (alookup ctx.registry k).isSome) :
    (alookup ((ctx.add_fresh_channel key).registry) k).isSome := by
  simp only [SharedContext.add_fresh_channel, SharedContext.channel,
    SharedContext.add_channel_pairs]
  rw [alookup_ainsert]
  by_cases he : key = k
  · simp [he]
  · simpa [he] using h

theorem alookup_isSome_foldl_add (keys : List UpDownActorIds) (ctx : SharedContext)
    (k : UpDownActorIds) (h : (alookup ctx.registry k).isSome) :
    (alookup ((keys.foldl SharedContext.add_fresh_channel ctx).registry) k).isSome := by
  induction keys generalizing ctx with
  | nil => exact h
  | cons key rest ih =>
    exact ih (ctx.add_fresh_channel key) (alookup_isSome_add_fresh ctx key k h)

theorem alookup_mem_foldl_add (keys : List UpDownActorIds) (ctx : SharedContext)
    (k : UpDownActorIds) (h : k ∈ keys) :
    (alookup ((keys.foldl SharedContext.add_fresh_channel ctx).registry) k).isSome := by
  induction keys generalizing ctx with
  | nil => cases h
  | cons key rest ih =>
    rcases List.mem_cons.mp h with heq | hmem
    · rw [heq]
      have hbase : (alookup ((ctx.add_fresh_channel key).registry) key).isSome := by
        simp only [SharedContext.add_fresh_channel, SharedContext.channel,
          SharedContext.add_channel_pairs]
        rw [alookup_ainsert]
        simp
      exact alookup_isSome_foldl_add rest (ctx.add_fresh_channel key) key hbase
    · exact ih (ctx.add_fresh_channel key) hmem

theorem update_actors_channel_step_spec (infos : List (ActorId × ActorInfo))
    (lids : List ActorId) (ctx : SharedContext) (current_id : ActorId)
    (actor : StreamActor) (ctx' : SharedContext)
    (h : update_actors_channel_step infos lids ctx current_id actor = .ok ctx') :
    (∀ key, (alookup ctx.registry key).isSome → (alookup ctx'.registry key).isSome) ∧
    (∀ d ∈ actor.dispatcher, ∀ down ∈ d.downstream_actor_id,
        (alookup ctx'.registry (current_id, down)).isSome) ∧
    (∀ up ∈ actor.upstream_actor_id, lids.contains up = false →
        (alookup ctx'.registry (up, current_id)).isSome) ∧
    (∃ node ks, actor.nodes = some node ∧
        build_channel_for_chain_node infos current_id node = .ok ks ∧
        ∀ k ∈ ks, (alookup ctx'.registry k).isSome) := by
  rcases hn : actor.nodes with _ | node
  · simp only [update_actors_channel_step, hn] at h
    cases h
  · simp only [update_actors_channel_step, hn] at h
    rcases hb : build_channel_for_chain_node infos current_id node with ks | e | m
    · rw [hb] at h
      simp only [PRes.bind] at h
      injection h with h
      subst h
      set downKeys := ((actor.dispatcher.map (fun x => x.downstream_actor_id)).flatten).map
          (fun id => (current_id, id)) with hdk
      set upKeys := (actor.upstream_actor_id.filter
          (fun u => ¬ lids.contains u)).map (fun u => (u, current_id)) with huk
      refine ⟨?_, ?_, ?_, ?_⟩
      · intro key hs
        apply alookup_isSome_foldl_add
        apply alookup_isSome_foldl_add
        apply alookup_isSome_foldl_add
        exact hs
      · intro d hd down hdown
        apply alookup_isSome_foldl_add
        apply alookup_mem_foldl_add
        rw [hdk]
        apply List.mem_map.mpr
        refine ⟨down, ?_, rfl⟩
        apply List.mem_flatten.mpr
        exact ⟨d.downstream_actor_id, List.mem_map.mpr ⟨d, hd, rfl⟩, hdown⟩
      · intro up hup hloc
        apply alookup_mem_foldl_add
        rw [huk]
        apply List.mem_map.mpr
        refine ⟨up, ?_, rfl⟩
        apply List.mem_filter.mpr
        exact ⟨hup, by simpa using hloc⟩
      · refine ⟨node, ks, rfl, hb, ?_⟩
        intro k hk
        apply alookup_isSome_foldl_add
        apply alookup_isSome_foldl_add
        exact alookup_mem_foldl_add ks ctx k hk
    · rw [hb] at h
      simp only [PRes.bind] at h
      cases h
    · rw [hb] at h
      simp only [PRes.bind] at h
      cases h

theorem update_actors_channel_loop_spec (infos : List (ActorId × ActorInfo))
    (lids : List ActorId) (entries : List (ActorId × StreamActor)) :
    ∀ ctx ctx', update_actors_channel_loop infos lids ctx entries = .ok ctx' →
      (∀ key, (alookup ctx.registry key).isSome → (alookup ctx'.registry key).isSome) ∧
      (∀ current_id actor, (current_id, actor) ∈ entries →
        (∀ d ∈ actor.dispatcher, ∀ down ∈ d.downstream_actor_id,
            (alookup ctx'.registry (current_id, down)).isSome) ∧
        (∀ up ∈ actor.upstream_actor_id, lids.contains up = false →
            (alookup ctx'.registry (up, current_id)).isSome) ∧
        (∃ node ks, actor.nodes = some node ∧
            build_channel_for_chain_node infos current_id node = .ok ks ∧
            ∀ k ∈ ks, (alookup ctx'.registry k).isSome)) := by
  induction entries with
  | nil =>
    intro ctx ctx' h
    injection h with h
    subst h
    exact ⟨fun key hs => hs, fun current_id actor hmem => absurd hmem (by simp)⟩
  | cons entry rest ih =>
    intro ctx ctx' h
    rcases entry with ⟨eid, eactor⟩
    rcases hstep : update_actors_channel_step infos lids ctx eid eactor with ctx₁ | e | m
    · rw [update_actors_channel_loop, hstep] at h
      simp only [PRes.bind] at h
      obtain ⟨hmono₁, hdown₁, hup₁, hchain₁⟩ :=
        update_actors_channel_step_spec infos lids ctx eid eactor ctx₁ hstep
      obtain ⟨hmono₂, hrest⟩ := ih ctx₁ ctx' h
      refine ⟨fun key hs => hmono₂ key (hmono₁ key hs), ?_⟩
      intro current_id actor hmem
      rcases List.mem_cons.mp hmem with heq | hmem'
      · injection heq with he1 he2
        subst he1
        subst he2
        refine ⟨?_, ?_, ?_⟩
        · intro d hd down hdown
          exact hmono₂ _ (hdown₁ d hd down hdown)
        · intro up hup hloc
          exact hmono₂ _ (hup₁ up hup hloc)
        · obtain ⟨node, ks, hn, hb, hks⟩ := hchain₁
          exact ⟨node, ks, hn, hb, fun k hk => hmono₂ _ (hks k hk)⟩
      · exact hrest current_id actor hmem'
    · rw [update_actors_channel_loop, hstep] at h
      cases h
    · rw [update_actors_channel_loop, hstep] at h
      cases h

theorem add_hanging_channels_mono (hcs : List HangingChannel) :
    ∀ ctx ctx', add_hanging_channels ctx hcs = .ok ctx' →
      ∀ k, (alookup ctx.registry k).isSome → (alookup ctx'.registry k).isSome := by
  induction hcs with
  | nil =>
    intro ctx ctx' h k hs
    injection h with h
    subst h
    exact hs
  | cons hc rest ih =>
    intro ctx ctx' h k hs
    rcases hc with ⟨up, down⟩
    rcases up with _ | upi <;> rcases down with _ | downi
    · simp only [add_hanging_channels, add_hanging_channel] at h
      cases h
    · simp only [add_hanging_channels, add_hanging_channel] at h
      cases h
    · simp only [add_hanging_channels, add_hanging_channel] at h
      cases h
    · rcases upi with ⟨upId, upHost⟩
      rcases downi with ⟨downId, downHost⟩
      rcases downHost with _ | dh
      · simp only [add_hanging_channels, add_hanging_channel] at h
        exact ih _ _ h k (alookup_isSome_add_fresh ctx (upId, downId) k hs)
      · rcases upHost with _ | uh
        · simp only [add_hanging_channels, add_hanging_channel] at h
          exact ih _ _ h k (alookup_isSome_add_fresh ctx (upId, downId) k hs)
        · simp only [add_hanging_channels, add_hanging_channel] at h
          cases h

theorem register_actors_preserves (req : List StreamActor) :
    ∀ tbl tbl', register_actors tbl req = .ok tbl' →
      ∀ id actor, alookup tbl id = some actor → alookup tbl' id = some actor := by
  induction req with
  | nil =>
    intro tbl tbl' h id actor hid
    injection h with h
    subst h
    exact hid
  | cons a rest ih =>
    intro tbl tbl' h id actor hid
    by_cases hp : (alookup tbl a.actor_id).isSome
    · rw [register_actors] at h
      simp only [hp] at h
      cases h
    · rw [register_actors] at h
      simp only [hp] at h
      simp only [Bool.false_eq_true, if_false] at h
      apply ih _ _ h
      rw [alookup_ainsert]
      have hne : a.actor_id ≠ id := by
        intro he
        rw [he, hid] at hp
        exact hp rfl
      simp [hne, hid]

/-- C10: on a successful `update_actors` call, every previously pending actor
stays in the pending table, and channel pre-creation covers *every* actor of
the (post-registration) table — chain channels, one pair per dispatcher
downstream edge, and one pair per upstream edge whose upstream id is not in
the current request's id set (so an upstream registered by an earlier call is
treated as non-local and still receives a pair). -/
theorem update_actors_channels_for_all_pending
    (core : LocalStreamManagerCore) (req : List StreamActor)
    (hanging : List HangingChannel) (tbl : List (ActorId × StreamActor))
    (core' : LocalStreamManagerCore)
    (hreg : register_actors core.actors req = .ok tbl)
    (hok : update_actors core req hanging = .ok core') :
    (∀ id actor, alookup core.actors id = some actor → alookup tbl id = some actor) ∧
    (∀ id actor, (id, actor) ∈ tbl →
      (∀ d ∈ actor.dispatcher, ∀ down ∈ d.downstream_actor_id,
          (alookup core'.context.registry (id, down)).isSome) ∧
      (∀ up ∈ actor.upstream_actor_id,
          ((req.map (fun a => a.actor_id)).contains up) = false →
          (alookup core'.context.registry (up, id)).isSome) ∧
      (∃ node ks, actor.nodes = some node ∧
          build_channel_for_chain_node core.actor_infos id node = .ok ks ∧
          ∀ k ∈ ks, (alookup core'.context.registry k).isSome)) := by
  simp only [update_actors, hreg] at hok
  rcases hloop : update_actors_channel_loop core.actor_infos
      (req.map (fun a => a.actor_id)) core.context tbl with ctx₁ | e | m
  · rw [hloop] at hok
    simp only [PRes.bind] at hok
    rcases hhang : add_hanging_channels ctx₁ hanging with e | ctx₂
    case error => rw [hhang] at hok; cases hok
    case ok =>
      rw [hhang] at hok
      injection hok with hok
      subst hok
      obtain ⟨hmono, hcover⟩ := update_actors_channel_loop_spec core.actor_infos
        (req.map (fun a => a.actor_id)) tbl core.context ctx₁ hloop
      have hmono₂ := add_hanging_channels_mono hanging ctx₁ ctx₂ hhang
      refine ⟨register_actors_preserves req core.actors tbl hreg, ?_⟩
      intro id actor hmem
      obtain ⟨hdown, hup, hchain⟩ := hcover id actor hmem
      refine ⟨?_, ?_, ?_⟩
      · intro d hd down hdn
        exact hmono₂ _ (hdown d hd down hdn)
      · intro up hu hloc
        exact hmono₂ _ (hup up hu hloc)
      · obtain ⟨node, ks, hn, hb, hks⟩ := hchain
        exact ⟨node, ks, hn, hb, fun k hk => hmono₂ _ (hks k hk)⟩
  · rw [hloop] at hok
    simp only [PRes.bind] at hok
    cases hok
  · rw [hloop] at hok
    simp only [PRes.bind] at hok
    cases hok

/-- Witness for C10: actor 1 is pending from an earlier call (downstream
edge to 5, upstream 3); a new request registering only actor 2 still creates
actor 1's channels, and upstream 3 — absent from the request's id set — is
treated as non-local, receiving the pair (3,1). -/
theorem update_actors_channels_for_all_pending_witness :
    (alookup [((3, 1), (⟨some 2, some 3⟩ : ChannelPair)),
        ((1, 5), ⟨some 0, some 1⟩)] (3, 1)).isSome ∧
    (alookup [((3, 1), (⟨some 2, some 3⟩ : ChannelPair)),
        ((1, 5), ⟨some 0, some 1⟩)] (1, 5)).isSome := by
  have h := update_actors_channels_for_all_pending
    ⟨[], ⟨[], 0⟩, [],
      [(1, ⟨1, 0, some (.mk (some .other) []), [⟨.simple, [], none, 0, [5]⟩], [3]⟩)]⟩
    [⟨2, 0, some (.mk (some .other) []), [], []⟩] []
    [(2, ⟨2, 0, some (.mk (some .other) []), [], []⟩),
     (1, ⟨1, 0, some (.mk (some .other) []), [⟨.simple, [], none, 0, [5]⟩], [3]⟩)]
    ⟨[], ⟨[((3, 1), ⟨some 2, some 3⟩), ((1, 5), ⟨some 0, some 1⟩)], 4⟩, [],
      [(2, ⟨2, 0, some (.mk (some .other) []), [], []⟩),
       (1, ⟨1, 0, some (.mk (some .other) []), [⟨.simple, [], none, 0, [5]⟩], [3]⟩)]⟩
    rfl rfl
  obtain ⟨hdown, hup, _⟩ := h.2 1
    ⟨1, 0, some (.mk (some .other) []), [⟨.simple, [], none, 0, [5]⟩], [3]⟩
    (by simp)
  exact ⟨hup 3 (by simp) (by simp), hdown ⟨.simple, [], none, 0, [5]⟩ (by simp) 5 (by simp)⟩

/-! ### `build_actors` (stream_manager.rs)

The source removes (`remove().unwrap()`) the pending descriptor, builds the
executor graph and dispatcher, spawns the actor and records its handle.
Executor/dispatcher construction and spawning (`create_nodes`,
`create_dispatcher`, `madsim::task::spawn`) are abstracted by the
`build_exec` parameter returning the spawned task's handle: `create_executor`
dispatches to operator builders outside `src/`, and none of that pipeline
touches the pending-descriptor table. -/

/-- Embedding of `LocalStreamManagerCore::build_actors`. -/
def build_actors (build_exec : ActorId → StreamActor → Except ErrorCode Nat)
    (core : LocalStreamManagerCore) : List ActorId → PRes LocalStreamManagerCore
  | [] => .ok core
  | actor_id :: rest =>
      match alookup core.actors actor_id with
      | none => .panicked "called Option::unwrap on a None value"
      | some actor =>
          match build_exec actor_id actor with
          | .error e => .err e
          | .ok handle =>
              build_actors build_exec
                { core with actors := aerase core.actors actor_id,
                            handles := ainsert core.handles actor_id handle } rest

theorem build_actors_absent_stays_absent
    (build_exec : ActorId → StreamActor → Except ErrorCode Nat) (ids : List ActorId) :
    ∀ core core', build_actors build_exec core ids = .ok core' →
      ∀ k, alookup core.actors k = none → alookup core'.actors k = none := by
  induction ids with
  | nil =>
    intro core core' h k hk
    injection h with h
    subst h
    exact hk
  | cons actor_id rest ih =>
    intro core core' h k hk
    rcases hl : alookup core.actors actor_id with _ | actor
    · simp only [build_actors, hl] at h
      cases h
    · simp only [build_actors, hl] at h
      rcases hb : build_exec actor_id actor with e | handle
      · rw [hb] at h
        cases h
      · rw [hb] at h
        apply ih _ _ h
        show alookup (aerase core.actors actor_id) k = none
        rw [alookup_aerase]
        by_cases he : actor_id = k
        · simp [he]
        · simp [he, hk]

/-- C6: `build_actors` consumes each listed actor's pending descriptor
exactly once — a call whose first id has no descriptor panics instead of
building, a successful call leaves every listed id without a descriptor, and
listing the same id twice (already built, not re-registered) panics. -/
theorem build_actors_consumes_descriptors
    (build_exec : ActorId → StreamActor → Except ErrorCode Nat)
    (core : LocalStreamManagerCore) (actor_id : ActorId) (rest : List ActorId) :
    (alookup core.actors actor_id = none →
      build_actors build_exec core (actor_id :: rest) =
        .panicked "called Option::unwrap on a None value") ∧
    (∀ ids core', build_actors build_exec core ids = .ok core' →
      actor_id ∈ ids → alookup core'.actors actor_id = none) ∧
    (∀ actor handle, alookup core.actors actor_id = some actor →
      build_exec actor_id actor = .ok handle →
      build_actors build_exec core [actor_id, actor_id] =
        .panicked "called Option::unwrap on a None value") := by
  refine ⟨?_, ?_, ?_⟩
  · intro hnone
    rw [build_actors, hnone]
  · intro ids
    induction ids generalizing core with
    | nil =>
      intro core' _ hmem
      cases hmem
    | cons id₀ rest₀ ih =>
      intro core' h hmem
      rcases hl : alookup core.actors id₀ with _ | actor
      · simp only [build_actors, hl] at h
        cases h
      · simp only [build_actors, hl] at h
        rcases hb : build_exec id₀ actor with e | handle
        · rw [hb] at h
          cases h
        · rw [hb] at h
          rcases List.mem_cons.mp hmem with heq | hmem'
          · subst heq
            apply build_actors_absent_stays_absent build_exec rest₀ _ _ h
            show alookup (aerase core.actors actor_id) actor_id = none
            rw [alookup_aerase]
            simp
          · exact ih _ _ h hmem'
  · intro actor handle hsome hbuild
    have herase : alookup (aerase core.actors actor_id) actor_id = none := by
      rw [alookup_aerase]; simp
    simp only [build_actors, hsome, hbuild, herase]

/-- Witness for C6: with actor 1 pending and a build that succeeds, building
`[1, 1]` panics at the second occurrence; building `[1]` with no descriptor
panics immediately. -/
theorem build_actors_consumes_descriptors_witness :
    build_actors (fun _ _ => .ok 0)
        ⟨[], ⟨[], 0⟩, [], [(1, ⟨1, 0, none, [], []⟩)]⟩ [1, 1] =
      .panicked "called Option::unwrap on a None value" ∧
    build_actors (fun _ _ => .ok 0) ⟨[], ⟨[], 0⟩, [], []⟩ [1] =
      .panicked "called Option::unwrap on a None value" := by
  constructor
  · exact (build_actors_consumes_descriptors (fun _ _ => .ok 0)
      ⟨[], ⟨[], 0⟩, [], [(1, ⟨1, 0, none, [], []⟩)]⟩ 1 []).2.2
      ⟨1, 0, none, [], []⟩ 0 rfl rfl
  · exact (build_actors_consumes_descriptors (fun _ _ => .ok 0)
      ⟨[], ⟨[], 0⟩, [], []⟩ 1 []).1 rfl

/-! ### `create_dispatcher` (stream_manager.rs)

The per-descriptor construction: resolve each downstream actor's location and
wrap it in an output (`new_output` lives in dispatch.rs, outside `src/`, and
is a parameter), then build the variant-specific dispatcher; `Simple` and
`NoShuffle` assert exactly one output, `Hash` asserts a non-empty output set
and decompresses the consistent-hash mapping. -/

/-- Sequential fallible map (the `collect::<Result<Vec<_>>>()` idiom). -/
def exceptMapM {α β : Type} (f : α → Except ErrorCode β) :
    List α → Except ErrorCode (List β)
  | [] => .ok []
  | a :: rest =>
      match f a with
      | .error e => .error e
      | .ok b =>
          match exceptMapM f rest with
          | .error e => .error e
          | .ok bs => .ok (b :: bs)

theorem exceptMapM_length {α β : Type} (f : α → Except ErrorCode β) :
    ∀ xs ys, exceptMapM f xs = .ok ys → ys.length = xs.length := by
  intro xs
  induction xs with
  | nil =>
    intro ys h
    injection h with h
    subst h
    rfl
  | cons a rest ih =>
    intro ys h
    rcases ha : f a with e | b
    · rw [exceptMapM, ha] at h
      cases h
    · rw [exceptMapM, ha] at h
      rcases hrest : exceptMapM f rest with e | bs
      · rw [hrest] at h
        cases h
      · rw [hrest] at h
        injection h with h
        subst h
        simp [ih bs hrest]

/-- The `outputs` construction of `create_dispatcher`: for every downstream
actor id, `get_actor_info` (error if unknown), `get_host` (error if missing),
then `new_output` with the downstream address. -/
def build_outputs (new_output : HostAddress → ActorId → ActorId → Except ErrorCode Nat)
    (infos : List (ActorId × ActorInfo)) (actor_id : ActorId)
    (downs : List ActorId) : Except ErrorCode (List Nat) :=
  exceptMapM (fun down_id =>
    match alookup infos down_id with
    | none => .error .actorNotFoundInInfoTable
    | some info =>
        match info.host with
        | none => .error .hostNotFound
        | some addr => new_output addr actor_id down_id) downs

/-- Modelled from the spec: run-length decompression of the compressed
consistent-hash mapping into the vnode-to-value vector
(`risingwave_common::util::compress`, not under `src/`); `original_indices`
holds the last position of each run of `data`. -/
def decompress_data (original_indices data : List Nat) : List Nat :=
  ((original_indices.zip data).foldl
    (fun (acc : List Nat × Nat) p =>
      (acc.1 ++ List.replicate (p.1 + 1 - acc.2) p.2, p.1 + 1))
    ([], 0)).1

/-- The dispatcher variants built by `create_dispatcher`
(`DispatcherImpl::{Hash, Broadcast, Simple}`). -/
inductive DispatcherImpl where
  | hash (downstream_actor_id : List ActorId) (outputs : List Nat)
      (column_indices : List Nat) (hash_mapping : List Nat) (dispatcher_id : Nat)
  | broadcast (outputs : List Nat) (dispatcher_id : Nat)
  | simple (output : Nat) (dispatcher_id : Nat)
deriving DecidableEq, Repr

/-- The body of `create_dispatcher`'s per-descriptor loop iteration. -/
def create_dispatcher_impl
    (new_output : HostAddress → ActorId → ActorId → Except ErrorCode Nat)
    (infos : List (ActorId × ActorInfo)) (actor_id : ActorId)
    (dispatcher : Dispatcher) : PRes DispatcherImpl :=
  match build_outputs new_output infos actor_id dispatcher.downstream_actor_id with
  | .error e => .err e
  | .ok outputs =>
      match dispatcher.type with
      | .hash =>
          if outputs.isEmpty then .panicked "assertion failed: !outputs.is_empty()"
          else
            match dispatcher.hash_mapping with
            | none => .err .hashMappingNotFound
            | some compressed_mapping =>
                .ok (.hash dispatcher.downstream_actor_id outputs
                  dispatcher.column_indices
                  (decompress_data compressed_mapping.original_indices
                    compressed_mapping.data)
                  dispatcher.dispatcher_id)
      | .broadcast => .ok (.broadcast outputs dispatcher.dispatcher_id)
      | .simple =>
          match outputs with
          | [output] => .ok (.simple output dispatcher.dispatcher_id)
          | _ => .panicked "assertion failed: outputs.len() == 1"
      | .noShuffle =>
          match outputs with
          | [output] => .ok (.simple output dispatcher.dispatcher_id)
          | _ => .panicked "assertion failed: outputs.len() == 1"
      | .invalid => .panicked "internal error: entered unreachable code"

/-- Embedding of `LocalStreamManagerCore::create_dispatcher`'s loop over the
descriptor list (the resulting `DispatchExecutor` is the list of built
variants). -/
def create_dispatcher
    (new_output : HostAddress → ActorId → ActorId → Except ErrorCode Nat)
    (infos : List (ActorId × ActorInfo)) (actor_id : ActorId) :
    List Dispatcher → PRes (List DispatcherImpl)
  | [] => .ok []
  | d :: rest =>
      PRes.bind (create_dispatcher_impl new_output infos actor_id d) fun impl =>
        PRes.bind (create_dispatcher new_output infos actor_id rest) fun impls =>
          .ok (impl :: impls)

/-- C8: a `Simple` or `NoShuffle` dispatcher descriptor builds successfully
exactly when it configures one downstream output; any other output count is
a construction failure (the `assert_eq!(outputs.len(), 1)` panic). -/
theorem create_dispatcher_simple_single_output
    (new_output : HostAddress → ActorId → ActorId → Except ErrorCode Nat)
    (infos : List (ActorId × ActorInfo)) (actor_id : ActorId)
    (d : Dispatcher) (outs : List Nat)
    (hkind : d.type = .simple ∨ d.type = .noShuffle)
    (houts : build_outputs new_output infos actor_id d.downstream_actor_id = .ok outs) :
    (d.downstream_actor_id.length = 1 →
      ∃ output, outs = [output] ∧
        create_dispatcher_impl new_output infos actor_id d =
          .ok (.simple output d.dispatcher_id)) ∧
    (d.downstream_actor_id.length ≠ 1 →
      create_dispatcher_impl new_output infos actor_id d =
        .panicked "assertion failed: outputs.len() == 1") := by
  have hlen : outs.length = d.downstream_actor_id.length :=
    exceptMapM_length _ d.downstream_actor_id outs houts
  constructor
  · intro h1
    rw [h1] at hlen
    rcases outs with _ | ⟨output, outs'⟩
    · cases hlen
    · rcases outs' with _ | ⟨o2, outs''⟩
      · refine ⟨output, rfl, ?_⟩
        rcases hkind with hk | hk <;>
          simp only [create_dispatcher_impl, houts, hk]
      · cases hlen
  · intro hne
    have houtlen : outs.length ≠ 1 := fun hcontra => hne (hlen ▸ hcontra)
    rcases outs with _ | ⟨output, outs'⟩
    · rcases hkind with hk | hk <;>
        simp only [create_dispatcher_impl, houts, hk]
    · rcases outs' with _ | ⟨o2, outs''⟩
      · exact absurd rfl houtlen
      · rcases hkind with hk | hk <;>
          simp only [create_dispatcher_impl, houts, hk]

/-- Witness for C8: a `Simple` descriptor with single downstream 5 builds
`DispatcherImpl::Simple`; with two downstreams 5 and 6 it panics. -/
theorem create_dispatcher_simple_single_output_witness :
    create_dispatcher_impl (fun _ _ down => .ok down)
        [(5, ⟨5, some ⟨"h", 1⟩⟩), (6, ⟨6, some ⟨"h", 1⟩⟩)] 1
        ⟨.simple, [], none, 7, [5]⟩ = .ok (.simple 5 7) ∧
    create_dispatcher_impl (fun _ _ down => .ok down)
        [(5, ⟨5, some ⟨"h", 1⟩⟩), (6, ⟨6, some ⟨"h", 1⟩⟩)] 1
        ⟨.simple, [], none, 7, [5, 6]⟩ =
      .panicked "assertion failed: outputs.len() == 1" := by
  constructor
  · obtain ⟨output, houts, himpl⟩ := (create_dispatcher_simple_single_output
      (fun _ _ down => .ok down) [(5, ⟨5, some ⟨"h", 1⟩⟩), (6, ⟨6, some ⟨"h", 1⟩⟩)] 1
      ⟨.simple, [], none, 7, [5]⟩ [5] (Or.inl rfl) rfl).1 rfl
    have : output = 5 := by
      injection houts with h1 _
      exact h1.symm
    rw [this] at himpl
    exact himpl
  · exact (create_dispatcher_simple_single_output
      (fun _ _ down => .ok down) [(5, ⟨5, some ⟨"h", 1⟩⟩), (6, ⟨6, some ⟨"h", 1⟩⟩)] 1
      ⟨.simple, [], none, 7, [5, 6]⟩ [5, 6] (Or.inl rfl) rfl).2 (by simp)

/-! ### Hash-aggregation executor construction (from_proto/hash_agg.rs)

`HashAggExecutorBuilder::new_boxed_executor` reads the group-key indices,
builds the agg calls and the state-table column mappings, takes the single
input executor, computes the hash-key kind from the data types of the
input-schema fields at the group-key indices, and dispatches once on that
kind.  `calc_hash_key_kind` and the executor's type parameter `K` live in
`risingwave_common::hash` (outside `src/`) and are modelled from the spec;
the chosen `K` is recorded as the `kind` field of the built executor. -/

/-- Column data types relevant to hash-key sizing. -/
inductive DataType where
  | int16
  | int32
  | int64
  | float32
  | float64
  | boolean
  | decimal
  | date
  | varchar
deriving DecidableEq, Repr

/-- Modelled from the spec: the fixed-width hash-key encoding size of a data
type in bytes, `none` for variable-width types. -/
def DataType.hashKeyFixedSize : DataType → Option Nat
  | .int16 => some 2
  | .int32 => some 4
  | .int64 => some 8
  | .float32 => some 4
  | .float64 => some 8
  | .boolean => some 1
  | .decimal => some 16
  | .date => some 4
  | .varchar => none

/-- The closed set of key representations the dispatcher specializes over. -/
inductive HashKeyKind where
  | key8
  | key16
  | key32
  | key64
  | key128
  | key256
  | keySerialized
deriving DecidableEq, Repr

/-- Total fixed size of a key schema, `none` if any column is
variable-width. -/
def totalHashKeySize : List DataType → Option Nat
  | [] => some 0
  | t :: rest =>
      match t.hashKeyFixedSize, totalHashKeySize rest with
      | some n, some m => some (n + m)
      | _, _ => none

/-- Modelled from the spec: `calc_hash_key_kind` resolves, once at build
time, a concrete fixed-width bucket (by total key size) or the
variable-width serialized representation
(`risingwave_common::hash`, not under `src/`). -/
def calc_hash_key_kind (types : List DataType) : HashKeyKind :=
  match totalHashKeySize types with
  | none => .keySerialized
  | some n =>
      if n ≤ 1 then .key8
      else if n ≤ 2 then .key16
      else if n ≤ 4 then .key32
      else if n ≤ 8 then .key64
      else if n ≤ 16 then .key128
      else if n ≤ 32 then .key256
      else .keySerialized

/-- `input.schema().fields[idx].data_type()` over a list of indices; `none`
embeds the out-of-bounds indexing panic. -/
def schema_types_at (schema : List DataType) : List Nat → Option (List DataType)
  | [] => some []
  | i :: rest =>
      match schema.get? i, schema_types_at schema rest with
      | some t, some ts => some (t :: ts)
      | _, _ => none

/-- The `HashAggNode` protobuf body (state-table descriptors are tokens). -/
structure HashAggNode where
  group_key : List Nat
  agg_calls : List Nat
  is_append_only : Bool
  column_mappings : List (List Nat)
  internal_tables : List Nat
deriving DecidableEq, Repr

/-- The `ExecutorParams` fields the hash-agg builder reads; `input_schemas`
holds the schemas of `params.input` (the `[input]: [_; 1]` destructuring
asserts exactly one). -/
structure HashAggParams where
  pk_indices : List Nat
  executor_id : Nat
  actor_id : ActorId
  input_schemas : List (List DataType)
  vnode_bitmap : Option (List Bool)
deriving DecidableEq, Repr

/-- The executor produced by `HashAggExecutorDispatcher::dispatch`: `kind`
records the monomorphized key representation `K`. -/
structure BuiltHashAggExecutor where
  kind : HashKeyKind
  key_indices : List Nat
  pk_indices : List Nat
  actor_id : ActorId
  executor_id : Nat
  state_table_col_mappings : List (List Nat)
deriving DecidableEq, Repr

/-- Embedding of `HashAggExecutorBuilder::new_boxed_executor`
(`build_agg_call` embeds `build_agg_call_from_prost`, outside `src/`, as a
parameter). -/
def hash_agg_new_boxed_executor
    (build_agg_call : Bool → Nat → Except ErrorCode Nat)
    (params : HashAggParams) (node : HashAggNode) : PRes BuiltHashAggExecutor :=
  let key_indices := node.group_key
  match exceptMapM (build_agg_call node.is_append_only) node.agg_calls with
  | .error e => .err e
  | .ok _agg_calls =>
      let state_table_col_mappings := node.column_mappings
      match params.input_schemas with
      | [schema] =>
          match schema_types_at schema key_indices with
          | none => .panicked "index out of bounds"
          | some keys =>
              let kind := calc_hash_key_kind keys
              match params.vnode_bitmap with
              | none => .panicked "vnodes not set for hash agg"
              | some _vnodes =>
                  .ok ⟨kind, key_indices, params.pk_indices, params.actor_id,
                    params.executor_id, state_table_col_mappings⟩
      | [] => .panicked "try_into failed: expected exactly one input"
      | _ :: _ :: _ => .panicked "try_into failed: expected exactly one input"

/-- C9: a built hash-agg executor's key representation is exactly
`calc_hash_key_kind` of the input-schema data types at the node's group-key
indices, so any two successful builds whose group-key columns carry the same
type sequence select the same representation. -/
theorem hash_agg_key_kind_resolution
    (f₁ f₂ : Bool → Nat → Except ErrorCode Nat)
    (params₁ params₂ : HashAggParams) (node₁ node₂ : HashAggNode)
    (e₁ e₂ : BuiltHashAggExecutor) (schema₁ schema₂ : List DataType)
    (ts : List DataType)
    (hs₁ : params₁.input_schemas = [schema₁])
    (hs₂ : params₂.input_schemas = [schema₂])
    (hb₁ : hash_agg_new_boxed_executor f₁ params₁ node₁ = .ok e₁)
    (hb₂ : hash_agg_new_boxed_executor f₂ params₂ node₂ = .ok e₂)
    (ht₁ : schema_types_at schema₁ node₁.group_key = some ts)
    (ht₂ : schema_types_at schema₂ node₂.group_key = some ts) :
    e₁.kind = calc_hash_key_kind ts ∧
    e₂.kind = calc_hash_key_kind ts ∧
    e₁.kind = e₂.kind := by
  have hkind : ∀ (f : Bool → Nat → Except ErrorCode Nat) (params : HashAggParams)
      (node : HashAggNode) (e : BuiltHashAggExecutor) (schema : List DataType),
      params.input_schemas = [schema] →
      hash_agg_new_boxed_executor f params node = .ok e →
      schema_types_at schema node.group_key = some ts →
      e.kind = calc_hash_key_kind ts := by
    intro f params node e schema hs hb ht
    rcases ha : exceptMapM (f node.is_append_only) node.agg_calls with e' | aggs
    · simp only [hash_agg_new_boxed_executor, ha] at hb
      cases hb
    · simp only [hash_agg_new_boxed_executor, ha, hs, ht] at hb
      rcases hv : params.vnode_bitmap with _ | vnodes
      · rw [hv] at hb
        cases hb
      · rw [hv] at hb
        injection hb with hb
        subst hb
        rfl
  exact ⟨hkind f₁ params₁ node₁ e₁ schema₁ hs₁ hb₁ ht₁,
    hkind f₂ params₂ node₂ e₂ schema₂ hs₂ hb₂ ht₂,
    by rw [hkind f₁ params₁ node₁ e₁ schema₁ hs₁ hb₁ ht₁,
      hkind f₂ params₂ node₂ e₂ schema₂ hs₂ hb₂ ht₂]⟩

/-- Witness for C9: two builds over different schemas and group-key indices
whose key columns are both `[int32, int64]` pick the same kind (`key128`,
total 12 bytes). -/
theorem hash_agg_key_kind_resolution_witness :
    (⟨.key128, [0, 1], [], 1, 10, []⟩ : BuiltHashAggExecutor).kind =
        calc_hash_key_kind [.int32, .int64] ∧
    (⟨.key128, [1, 0], [2], 2, 11, [[0]]⟩ : BuiltHashAggExecutor).kind =
        calc_hash_key_kind [.int32, .int64] ∧
    (⟨.key128, [0, 1], [], 1, 10, []⟩ : BuiltHashAggExecutor).kind =
      (⟨.key128, [1, 0], [2], 2, 11, [[0]]⟩ : BuiltHashAggExecutor).kind :=
  hash_agg_key_kind_resolution
    (fun _ _ => .ok 0) (fun _ _ => .ok 0)
    ⟨[], 10, 1, [[.int32, .int64]], some [true]⟩
    ⟨[2], 11, 2, [[.int64, .int32, .varchar]], some [true]⟩
    ⟨[0, 1], [], false, [], []⟩
    ⟨[1, 0], [3], true, [[0]], [4]⟩
    ⟨.key128, [0, 1], [], 1, 10, []⟩
    ⟨.key128, [1, 0], [2], 2, 11, [[0]]⟩
    [.int32, .int64] [.int64, .int32, .varchar]
    [.int32, .int64]
    rfl rfl rfl rfl rfl rfl

end RisingWave
